import Mathlib

/-!
Verification of the OpenWork front-end application layer.

The TypeScript sources are shallowly embedded: JavaScript strings are Lean
`String`s manipulated through executable character-list helpers mirroring the
JS string builtins the code uses (`trim`, `toLowerCase`, `toUpperCase`,
`startsWith`, `endsWith`, regular-expression tests spelled out on characters),
the browser `localStorage` is an association list from keys to values, and
the reactive signal updates performed by an event handler are modelled either
as explicit state-passing or as a trace of update events in program order.
External services (the OpenCode engine client, the Tauri updater plugin, the
jsonc-parser npm package, `JSON.parse`) are parameters of the embedding: the
theorems quantify over their behaviour.
-/

/-! ## JavaScript string primitives (ASCII model) -/

/-- JS whitespace test for `String.prototype.trim`, restricted to the ASCII
whitespace the embedded values use. -/
def jsWs (c : Char) : Bool :=
  c = ' ' || c = '\t' || c = '\n' || c = '\r'

/-- Drop JS whitespace from both ends of a character list. -/
def trimChars (cs : List Char) : List Char :=
  ((cs.dropWhile jsWs).reverse.dropWhile jsWs).reverse

/-- JS `s.trim()`. -/
def jsTrim (s : String) : String :=
  ⟨trimChars s.data⟩

/-- ASCII lower-casing of one character, as `toLowerCase` acts on the ASCII
range. -/
def asciiLower (c : Char) : Char :=
  if 'A' ≤ c && c ≤ 'Z' then Char.ofNat (c.toNat + 32) else c

/-- ASCII upper-casing of one character, as `toUpperCase` acts on the ASCII
range. -/
def asciiUpper (c : Char) : Char :=
  if 'a' ≤ c && c ≤ 'z' then Char.ofNat (c.toNat - 32) else c

/-- JS `s.toLowerCase()` on ASCII data. -/
def jsToLower (s : String) : String :=
  ⟨s.data.map asciiLower⟩

/-- JS `s.toUpperCase()` on ASCII data. -/
def jsToUpper (s : String) : String :=
  ⟨s.data.map asciiUpper⟩

/-- JS `s.startsWith(p)`. -/
def jsStartsWith (s p : String) : Bool :=
  p.data.isPrefixOf s.data

/-- JS `s.endsWith(p)`. -/
def jsEndsWith (s p : String) : Bool :=
  p.data.isSuffixOf s.data

/-! ## C9: validateMcpServerName -/

/-- One character of the class `[A-Za-z0-9_-]` from the regular expression
`^[A-Za-z0-9_-]+$` in `validateMcpServerName`. -/
def isMcpNameChar (c : Char) : Bool :=
  ('A' ≤ c && c ≤ 'Z') || ('a' ≤ c && c ≤ 'z') || ('0' ≤ c && c ≤ '9') ||
    c = '_' || c = '-'

/-- `validateMcpServerName` from the MCP config helpers: trims the name and
throws (modelled as `Except.error`) unless the trimmed name is non-empty, does
not start with a hyphen, and matches `^[A-Za-z0-9_-]+$`. -/
def validateMcpServerName (name : String) : Except String String :=
  let trimmed := jsTrim name
  if trimmed = "" then
    Except.error "server_name is required"
  else if jsStartsWith trimmed "-" then
    Except.error "server_name must not start with a hyphen"
  else if !(trimmed.data.all isMcpNameChar) then
    Except.error "server_name must be alphanumeric with hyphen or underscore"
  else
    Except.ok trimmed

/-- C9: `validateMcpServerName(name)` returns the trimmed name exactly when
the trimmed name is non-empty, does not start with a hyphen, and consists only
of ASCII letters, digits, hyphen and underscore; in every other case it throws
(raises-iff). -/
theorem validateMcpServerName_iff (name : String) :
    (validateMcpServerName name = Except.ok (jsTrim name) ↔
      (jsTrim name ≠ "" ∧ ¬ jsStartsWith (jsTrim name) "-" ∧
        (jsTrim name).data.all isMcpNameChar)) ∧
    ((jsTrim name = "" ∨ jsStartsWith (jsTrim name) "-" ∨
        ¬ (jsTrim name).data.all isMcpNameChar) →
      ∃ e, validateMcpServerName name = Except.error e) := by
  by_cases h1 : jsTrim name = ""
  · refine ⟨by simp [validateMcpServerName, h1], fun _ => ?_⟩
    exact ⟨"server_name is required", by simp [validateMcpServerName, h1]⟩
  · by_cases h2 : jsStartsWith (jsTrim name) "-"
    · refine ⟨by simp [validateMcpServerName, h1, h2], fun _ => ?_⟩
      exact ⟨"server_name must not start with a hyphen",
        by simp [validateMcpServerName, h1, h2]⟩
    · by_cases h3 : (jsTrim name).data.all isMcpNameChar
      · refine ⟨?_, ?_⟩
        · have hv : validateMcpServerName name = Except.ok (jsTrim name) := by
            simp [validateMcpServerName, h1, h2, h3]
          exact ⟨fun _ => ⟨h1, h2, h3⟩, fun _ => hv⟩
        · intro h
          rcases h with h | h | h
          · exact absurd h h1
          · exact absurd h h2
          · exact absurd h3 h
      · refine ⟨?_, fun _ => ?_⟩
        · simp [validateMcpServerName, h1, h2, h3]
        · exact ⟨"server_name must be alphanumeric with hyphen or underscore",
            by simp [validateMcpServerName, h1, h2, h3]⟩

/-- C9 witness: evaluating the characterisation at the concrete input
`" tool-1 "`, whose trimmed form `tool-1` is accepted. -/
theorem validateMcpServerName_iff_witness :
    validateMcpServerName " tool-1 " = Except.ok "tool-1" := by
  have h := (validateMcpServerName_iff " tool-1 ").1.2 (by decide)
  have e : jsTrim " tool-1 " = "tool-1" := by decide
  rw [e] at h
  exact h

/-! ## C10: clearOpenworkLocalStorage -/

/-- The browser `localStorage`, modelled as an association list of key/value
pairs (each key occurs at most once in a real store; the model does not need
that assumption). -/
abbrev LocalStorage := List (String × String)

/-- `window.localStorage.removeItem(key)`. -/
def removeItem (store : LocalStorage) (key : String) : LocalStorage :=
  store.filter (fun kv => kv.1 != key)

/-- `clearOpenworkLocalStorage` from the App component: snapshots the keys,
removes every key starting with `openwork.`, then removes the legacy key
`openwork_mode_pref`. -/
def clearOpenworkLocalStorage (store : LocalStorage) : LocalStorage :=
  let keys := store.map Prod.fst
  let afterLoop := keys.foldl
    (fun acc key => if jsStartsWith key "openwork." then removeItem acc key else acc)
    store
  removeItem afterLoop "openwork_mode_pref"

theorem foldl_removeItem_eq_filter (P : String → Bool) (keys : List String) :
    ∀ acc : LocalStorage,
      keys.foldl (fun acc key => if P key then removeItem acc key else acc) acc =
        acc.filter (fun kv => !(P kv.1 && keys.contains kv.1)) := by
  induction keys with
  | nil => intro acc; simp
  | cons k ks ih =>
    intro acc
    rw [List.foldl_cons, ih]
    by_cases hk : P k
    · simp only [if_pos hk, removeItem, List.filter_filter]
      apply List.filter_congr
      intro kv _
      by_cases hkv : kv.1 = k
      · simp [hkv, hk]
      · simp [hkv, List.contains_cons, Ne.symm hkv]
    · simp only [if_neg hk]
      apply List.filter_congr
      intro kv _
      by_cases hkv : kv.1 = k
      · simp [hkv, hk]
      · simp [hkv]

/-- C10: `clearOpenworkLocalStorage` removes exactly the entries whose keys
start with `openwork.` plus the single legacy key `openwork_mode_pref`; every
other entry keeps its key and value unchanged (the store is the original list
filtered to the unaffected entries, in order). -/
theorem clearOpenworkLocalStorage_spec (store : LocalStorage) :
    clearOpenworkLocalStorage store =
      store.filter (fun kv =>
        !(jsStartsWith kv.1 "openwork.") && kv.1 != "openwork_mode_pref") := by
  simp only [clearOpenworkLocalStorage]
  rw [foldl_removeItem_eq_filter]
  simp only [removeItem, List.filter_filter]
  apply List.filter_congr
  intro kv hkv
  have hmem : (store.map Prod.fst).contains kv.1 = true :=
    List.elem_eq_true_of_mem (List.mem_map_of_mem Prod.fst hkv)
  rw [hmem]
  cases jsStartsWith kv.1 "openwork." <;> simp

/-! ## C8: resolveArtifactPath -/

/-- One character of the class `[\\/]` used by the path regular expressions in
SessionView. -/
def isSepChar (c : Char) : Bool :=
  c = '/' || c = '\\'

/-- One character of the class `[a-zA-Z]`. -/
def isAsciiLetter (c : Char) : Bool :=
  ('A' ≤ c && c ≤ 'Z') || ('a' ≤ c && c ≤ 'z')

/-- After a leading `~`: the remainder must begin with `[\\/]`. -/
def sepTail : List Char → Bool
  | c2 :: _ => isSepChar c2
  | [] => false

/-- After a leading drive letter: the remainder must begin with `:[\\/]`. -/
def driveTail : List Char → Bool
  | c2 :: c3 :: _ => (c2 = ':') && isSepChar c3
  | _ => false

/-- The test of the regular expression `^([a-zA-Z]:[\\/]|~[\\/]|/)` applied by
`resolveArtifactPath` (written there as a non-capturing alternation). -/
def isAbsoluteChars : List Char → Bool
  | [] => false
  | c :: rest =>
    if c = '/' then true
    else if c = '~' then sepTail rest
    else if isAsciiLetter c then driveTail rest
    else false

/-- The absolute-path test applied to a JS string. -/
def isAbsoluteArtifactPath (s : String) : Bool :=
  isAbsoluteChars s.data

/-- `root.replace(/[\\/]+$/, "")`: strip trailing path separators. -/
def dropTrailingSeps (s : String) : String :=
  ⟨(s.data.reverse.dropWhile isSepChar).reverse⟩

/-- `rawPath.replace(/^[\\/]+/, "")`: strip leading path separators. -/
def dropLeadingSeps (s : String) : String :=
  ⟨s.data.dropWhile isSepChar⟩

/-- JS `s.includes(c)` for a single character. -/
def strContainsChar (s : String) (c : Char) : Bool :=
  s.data.contains c

/-- `resolveArtifactPath` from SessionView: `artifactPath` is the artifact's
optional `path` field, `workspaceRoot` the optional active workspace display
path. -/
def resolveArtifactPath (artifactPath : Option String) (workspaceRoot : Option String) :
    Option String :=
  let rawPath := jsTrim (artifactPath.getD "")
  if rawPath = "" then none
  else if isAbsoluteArtifactPath rawPath then some rawPath
  else
    let root := jsTrim (workspaceRoot.getD "")
    if root = "" then some rawPath
    else
      let separator := if strContainsChar root '\\' then "\\" else "/"
      some (dropTrailingSeps root ++ separator ++ dropLeadingSeps rawPath)


theorem isAbsoluteChars_iff (cs : List Char) :
    isAbsoluteChars cs = true ↔
      ((∃ rest, cs = '/' :: rest) ∨
        (∃ sep rest, isSepChar sep = true ∧ cs = '~' :: sep :: rest) ∨
        (∃ c sep rest, isAsciiLetter c = true ∧ isSepChar sep = true ∧
          cs = c :: ':' :: sep :: rest)) := by
  rcases cs with _ | ⟨c, rest⟩
  · constructor
    · intro h
      exact absurd h (by decide)
    · rintro (⟨r, hr⟩ | ⟨a, r, _, hr⟩ | ⟨a, b, r, _, _, hr⟩) <;> exact absurd hr (by simp)
  by_cases h1 : c = '/'
  · subst h1
    exact ⟨fun _ => Or.inl ⟨rest, rfl⟩, fun _ => by simp [isAbsoluteChars]⟩
  · by_cases h2 : c = '~'
    · subst h2
      have hval : isAbsoluteChars ('~' :: rest) = sepTail rest := by
        simp [isAbsoluteChars]
      rw [hval]
      constructor
      · intro h
        rcases rest with _ | ⟨c2, rest2⟩
        · exact absurd h (by decide)
        · exact Or.inr (Or.inl ⟨c2, rest2, by simpa [sepTail] using h, rfl⟩)
      · rintro (⟨r, hr⟩ | ⟨a, r, ha, hr⟩ | ⟨a, b, r, ha, hb, hr⟩)
        · exact absurd (List.head_eq_of_cons_eq hr) h1
        · obtain ⟨-, hr2⟩ := List.cons_eq_cons.mp hr
          subst hr2
          simpa [sepTail] using ha
        · have hh : '~' = a := List.head_eq_of_cons_eq hr
          rw [← hh] at ha
          exact absurd ha (by decide)
    · by_cases h3 : isAsciiLetter c = true
      · have hval : isAbsoluteChars (c :: rest) = driveTail rest := by
          simp [isAbsoluteChars, h1, h2, h3]
        rw [hval]
        constructor
        · intro h
          rcases rest with _ | ⟨c2, _ | ⟨c3, rest3⟩⟩
          · exact absurd h (by decide)
          · exact absurd h (by simp [driveTail])
          · simp only [driveTail, Bool.and_eq_true, decide_eq_true_eq] at h
            exact Or.inr (Or.inr ⟨c, c3, rest3, h3, h.2, by rw [h.1]⟩)
        · rintro (⟨r, hr⟩ | ⟨a, r, ha, hr⟩ | ⟨a, b, r, ha, hb, hr⟩)
          · exact absurd (List.head_eq_of_cons_eq hr) h1
          · exact absurd (List.head_eq_of_cons_eq hr) h2
          · obtain ⟨-, hr2⟩ := List.cons_eq_cons.mp hr
            subst hr2
            simp [driveTail, hb]
      · have hval : isAbsoluteChars (c :: rest) = false := by
          simp [isAbsoluteChars, h1, h2, h3]
        rw [hval]
        constructor
        · intro h
          exact absurd h (by decide)
        · rintro (⟨r, hr⟩ | ⟨a, r, ha, hr⟩ | ⟨a, b, r, ha, hb, hr⟩)
          · exact absurd (List.head_eq_of_cons_eq hr) h1
          · exact absurd (List.head_eq_of_cons_eq hr) h2
          · have := List.head_eq_of_cons_eq hr
            subst this
            exact absurd ha h3

/-- C8: `resolveArtifactPath` returns `null` when the trimmed artifact path is
blank; returns the trimmed path unchanged when it is absolute (leading `/`, a
leading `~` followed by a slash or backslash, or a drive letter followed by
`:` and a slash or backslash) or when the trimmed workspace root is blank;
otherwise joins the trimmed path onto the trimmed root, using `\` as the
separator exactly when the root contains a backslash (and `/` otherwise), with
the root's trailing and the path's leading separators removed at the join
point. -/
theorem resolveArtifactPath_spec (artifactPath workspaceRoot : Option String) :
    (jsTrim (artifactPath.getD "") = "" →
      resolveArtifactPath artifactPath workspaceRoot = none) ∧
    (∀ raw, jsTrim (artifactPath.getD "") = raw → raw ≠ "" →
      ((∃ rest, raw.data = '/' :: rest) ∨
        (∃ sep rest, isSepChar sep = true ∧ raw.data = '~' :: sep :: rest) ∨
        (∃ c sep rest, isAsciiLetter c = true ∧ isSepChar sep = true ∧
          raw.data = c :: ':' :: sep :: rest)) →
      resolveArtifactPath artifactPath workspaceRoot = some raw) ∧
    (∀ raw, jsTrim (artifactPath.getD "") = raw → raw ≠ "" →
      isAbsoluteArtifactPath raw = false →
      jsTrim (workspaceRoot.getD "") = "" →
      resolveArtifactPath artifactPath workspaceRoot = some raw) ∧
    (∀ raw root, jsTrim (artifactPath.getD "") = raw → raw ≠ "" →
      isAbsoluteArtifactPath raw = false →
      jsTrim (workspaceRoot.getD "") = root → root ≠ "" →
      resolveArtifactPath artifactPath workspaceRoot =
        some (dropTrailingSeps root ++
          (if strContainsChar root '\\' then "\\" else "/") ++
          dropLeadingSeps raw)) := by
  refine ⟨?_, ?_, ?_, ?_⟩
  · intro h
    simp [resolveArtifactPath, h]
  · intro raw hraw hne habs
    have : isAbsoluteArtifactPath raw = true :=
      (isAbsoluteChars_iff raw.data).2 habs
    simp [resolveArtifactPath, hraw, hne, this]
  · intro raw hraw hne habs hroot
    simp [resolveArtifactPath, hraw, hne, habs, hroot]
  · intro raw root hraw hne habs hroot hrne
    simp [resolveArtifactPath, hraw, hne, habs, hroot, hrne]

/-- C8 witness: a relative path joined onto a Windows-style root with the
backslash separator, evaluated concretely. -/
theorem resolveArtifactPath_spec_witness :
    resolveArtifactPath (some " notes/report.md ") (some "C:\\work\\") =
      some "C:\\work\\notes/report.md" := by
  have h := (resolveArtifactPath_spec (some " notes/report.md ") (some "C:\\work\\")).2.2.2
    "notes/report.md" "C:\\work\\" (by decide) (by decide) (by decide) (by decide) (by decide)
  rw [h]
  decide

/-! ## C4: confirmReset -/

/-- `anyActiveRuns` from the App component: some listed session has resolved
status `running` or `retry` in the status-by-id record. -/
def anyActiveRuns (sessions : List String) (statusById : String → Option String) : Bool :=
  sessions.any (fun sid => statusById sid == some "running" || statusById sid == some "retry")

/-- What one call of `confirmReset` does. `performedReset` is the only outcome
that clears OpenWork state (native reset, localStorage clearing and
relaunch/reload); `blockedActiveRuns` is the only outcome that sets the error
message `Stop active runs before resetting.`; the other two return without
touching any state. -/
inductive ConfirmResetOutcome
  | ignoredBusy
  | blockedActiveRuns
  | ignoredText
  | performedReset
deriving DecidableEq

/-- `confirmReset` from the App component, as the decision among its four
early-return paths, in source order: the modal-busy guard, the active-runs
guard, the confirmation-text guard, then the reset itself. -/
def confirmReset (resetModalBusy : Bool) (sessions : List String)
    (statusById : String → Option String) (resetModalText : String) :
    ConfirmResetOutcome :=
  if resetModalBusy then ConfirmResetOutcome.ignoredBusy
  else if anyActiveRuns sessions statusById then ConfirmResetOutcome.blockedActiveRuns
  else if jsToUpper (jsTrim resetModalText) ≠ "RESET" then ConfirmResetOutcome.ignoredText
  else ConfirmResetOutcome.performedReset

/-- C4 counterexample: when the modal is already busy and a session is
running, `confirmReset` returns through the busy guard: state is not cleared,
but the error message `Stop active runs before resetting.` is not set either,
against the claim that it is set whenever active runs exist. -/
theorem confirmReset_busy_activeRuns_cex :
    anyActiveRuns ["s1"] (fun _ => some "running") = true ∧
    confirmReset true ["s1"] (fun _ => some "running") "RESET" =
      ConfirmResetOutcome.ignoredBusy ∧
    confirmReset true ["s1"] (fun _ => some "running") "RESET" ≠
      ConfirmResetOutcome.blockedActiveRuns ∧
    confirmReset true ["s1"] (fun _ => some "running") "RESET" ≠
      ConfirmResetOutcome.performedReset := by
  refine ⟨by decide, rfl, by decide, by decide⟩

/-- C4 (amended): `confirmReset` clears OpenWork state exactly when the
confirmation text, trimmed and upper-cased, equals `RESET`, the modal is not
already busy, and no listed session has status `running` or `retry`; in every
other case it returns without clearing state, and it sets the error message
`Stop active runs before resetting.` exactly when the modal is not already
busy and active runs exist. -/
theorem confirmReset_amended (busy : Bool) (sessions : List String)
    (statusById : String → Option String) (text : String) :
    (confirmReset busy sessions statusById text = ConfirmResetOutcome.performedReset ↔
      (busy = false ∧ anyActiveRuns sessions statusById = false ∧
        jsToUpper (jsTrim text) = "RESET")) ∧
    (confirmReset busy sessions statusById text = ConfirmResetOutcome.blockedActiveRuns ↔
      (busy = false ∧ anyActiveRuns sessions statusById = true)) ∧
    (anyActiveRuns sessions statusById = true ↔
      ∃ sid ∈ sessions,
        statusById sid = some "running" ∨ statusById sid = some "retry") := by
  refine ⟨?_, ?_, ?_⟩
  · unfold confirmReset
    cases busy with
    | true => simp
    | false =>
      cases h : anyActiveRuns sessions statusById with
      | true => simp
      | false =>
        by_cases ht : jsToUpper (jsTrim text) = "RESET" <;> simp [ht]
  · unfold confirmReset
    cases busy with
    | true => simp
    | false =>
      cases h : anyActiveRuns sessions statusById with
      | true => simp
      | false =>
        by_cases ht : jsToUpper (jsTrim text) = "RESET" <;> simp [ht]
  · unfold anyActiveRuns
    rw [List.any_eq_true]
    constructor
    · rintro ⟨sid, hmem, hor⟩
      rcases Bool.or_eq_true_iff.mp hor with h | h
      · exact ⟨sid, hmem, Or.inl (by simpa using h)⟩
      · exact ⟨sid, hmem, Or.inr (by simpa using h)⟩
    · rintro ⟨sid, hmem, h | h⟩
      · exact ⟨sid, hmem, by simp [h]⟩
      · exact ⟨sid, hmem, by simp [h]⟩

/-- C4 witness: with an idle modal, no sessions, and confirmation text
`" reset "`, the amended characterisation yields the reset outcome. -/
theorem confirmReset_amended_witness :
    confirmReset false [] (fun _ => none) " reset " =
      ConfirmResetOutcome.performedReset :=
  (confirmReset_amended false [] (fun _ => none) " reset ").1.2
    ⟨rfl, by decide, by decide⟩

/-! ## C5: respondPermissionAndRemember -/

/-- A permission reply the UI can send. -/
inductive PermissionReply
  | once
  | always
  | reject
deriving DecidableEq

/-- An effect a permission handler could perform: the session store's
`respondPermission` call into the engine, or one of the local persistence
channels (`localStorage`, a reactive signal) the `remember` variant could have
written but does not. -/
inductive AppEffect
  | engineRespond (requestID : String) (reply : PermissionReply)
  | localStorageSet (key value : String)
  | signalWrite (signal : String)
deriving DecidableEq

/-- `respondPermissionAndRemember` from the App component: its body awaits
`respondPermission(requestID, reply)` and nothing else (the source comment
marks the extra persistence as an intentional no-op; permission grants stay
session-scoped in the engine). The session store's `respondPermission` is
a parameter, so the statement holds for every behaviour of it. -/
def respondPermissionAndRemember
    (respondPermission : String → PermissionReply → List AppEffect)
    (requestID : String) (reply : PermissionReply) : List AppEffect :=
  respondPermission requestID reply

/-- C5: for every `requestID` and `reply`, `respondPermissionAndRemember`
performs exactly the effects of `respondPermission` and nothing else: in
particular every effect it performs is one `respondPermission` performs, so
no additional state is persisted by the `remember` variant. -/
theorem respondPermissionAndRemember_eq
    (respondPermission : String → PermissionReply → List AppEffect)
    (requestID : String) (reply : PermissionReply) :
    respondPermissionAndRemember respondPermission requestID reply =
      respondPermission requestID reply ∧
    ∀ e ∈ respondPermissionAndRemember respondPermission requestID reply,
      e ∈ respondPermission requestID reply :=
  ⟨rfl, fun _ h => h⟩

/-! ## C7: downloadUpdate -/

/-- The payload of the `downloading` update status. Byte counts are `Nat`:
the Tauri updater plugin reports them as non-negative sizes, and a missing or
non-numeric field in an event is modelled as `none`. -/
structure DownloadingInfo where
  lastCheckedAt : Int
  version : String
  totalBytes : Option Nat
  downloadedBytes : Nat
  notes : Option String
deriving DecidableEq

/-- The `updateStatus` discriminated union of the updater state. -/
inductive UpdateStatus
  | idle (lastCheckedAt : Option Int)
  | checking (startedAt : Int)
  | available (lastCheckedAt : Int) (version : String) (date : Option String)
      (notes : Option String)
  | downloading (info : DownloadingInfo)
  | ready (lastCheckedAt : Int) (version : String) (notes : Option String)
  | error (lastCheckedAt : Option Int) (message : String)
deriving DecidableEq

/-- A download event delivered to the callback in `downloadUpdate`: `Started`
with an optional numeric `contentLength`, `Progress` with an optional numeric
`chunkLength`, the terminal `Finished` event, or any other object. -/
inductive DownloadEvent
  | started (contentLength : Option Nat)
  | progress (chunkLength : Option Nat)
  | finished
  | other
deriving DecidableEq

/-- The `setUpdateStatus(current => ...)` functional update performed by the
download callback in `downloadUpdate`, one event at a time. -/
def applyDownloadEvent (current : UpdateStatus) (ev : DownloadEvent) : UpdateStatus :=
  match current with
  | UpdateStatus.downloading info =>
    match ev with
    | DownloadEvent.started contentLength =>
        UpdateStatus.downloading { info with totalBytes := contentLength }
    | DownloadEvent.progress chunkLength =>
        UpdateStatus.downloading
          { info with downloadedBytes := info.downloadedBytes + chunkLength.getD 0 }
    | _ => current
  | _ => current

/-- A pending update as `downloadUpdate` reads it: the version and release
notes remembered by `checkForUpdates` (the native update handle itself is
external). -/
structure PendingUpdate where
  version : String
  notes : Option String
deriving DecidableEq

/-- `const lastCheckedAt = state.state === "available" ? state.lastCheckedAt
: Date.now()` at the top of `downloadUpdate`. -/
def downloadLastCheckedAt (status0 : UpdateStatus) (now : Int) : Int :=
  match status0 with
  | UpdateStatus.available t _ _ _ => t
  | _ => now

/-- `downloadUpdate` from the App component: no-op without a pending update;
otherwise it enters the `downloading` status (no total, zero downloaded),
folds the download events through `applyDownloadEvent`, and ends `ready` on
completion or `error` on failure. The first component lists the statuses held
while downloading (in order); the second is the final status. -/
def downloadUpdate (pending : Option PendingUpdate) (status0 : UpdateStatus)
    (now : Int) (events : List DownloadEvent) (outcome : Except String Unit) :
    List UpdateStatus × UpdateStatus :=
  match pending with
  | none => ([], status0)
  | some p =>
    let t := downloadLastCheckedAt status0 now
    let start := UpdateStatus.downloading ⟨t, p.version, none, 0, p.notes⟩
    let during := events.scanl applyDownloadEvent start
    match outcome with
    | Except.ok _ => (during, UpdateStatus.ready t p.version p.notes)
    | Except.error msg => (during, UpdateStatus.error (some t) msg)

/-- C7: while the status is `downloading`, a `Started` event sets `totalBytes`
to the event's numeric `contentLength` (null otherwise) and a `Progress` event
adds its numeric `chunkLength` (0 otherwise) to `downloadedBytes`, which
therefore never decreases under any event; events arriving in any
non-`downloading` state leave the status unchanged; with a pending update the
final status is `ready` with the pending version and notes on completion, and
`error` carrying the failure message on failure. -/
theorem downloadUpdate_spec :
    (∀ (s : UpdateStatus) (e : DownloadEvent),
      (∀ info, s ≠ UpdateStatus.downloading info) → applyDownloadEvent s e = s) ∧
    (∀ info contentLength,
      applyDownloadEvent (UpdateStatus.downloading info)
          (DownloadEvent.started contentLength) =
        UpdateStatus.downloading { info with totalBytes := contentLength }) ∧
    (∀ info chunkLength,
      applyDownloadEvent (UpdateStatus.downloading info)
          (DownloadEvent.progress chunkLength) =
        UpdateStatus.downloading
          { info with downloadedBytes := info.downloadedBytes + chunkLength.getD 0 }) ∧
    (∀ info e, ∃ info2,
      applyDownloadEvent (UpdateStatus.downloading info) e =
        UpdateStatus.downloading info2 ∧
      info.downloadedBytes ≤ info2.downloadedBytes) ∧
    (∀ p status0 now events,
      (downloadUpdate (some p) status0 now events (Except.ok ())).2 =
        UpdateStatus.ready (downloadLastCheckedAt status0 now) p.version p.notes) ∧
    (∀ p status0 now events msg,
      (downloadUpdate (some p) status0 now events (Except.error msg)).2 =
        UpdateStatus.error (some (downloadLastCheckedAt status0 now)) msg) := by
  refine ⟨?_, fun _ _ => rfl, fun _ _ => rfl, ?_, fun _ _ _ _ => rfl, fun _ _ _ _ _ => rfl⟩
  · intro s e hs
    cases s with
    | downloading info => exact absurd rfl (hs info)
    | idle t => cases e <;> rfl
    | checking t => cases e <;> rfl
    | available t v d n => cases e <;> rfl
    | ready t v n => cases e <;> rfl
    | error t m => cases e <;> rfl
  · intro info e
    cases e with
    | started contentLength =>
      exact ⟨{ info with totalBytes := contentLength }, rfl, Nat.le_refl _⟩
    | progress chunkLength =>
      exact ⟨{ info with downloadedBytes := info.downloadedBytes + chunkLength.getD 0 },
        rfl, Nat.le_add_right _ _⟩
    | finished => exact ⟨info, rfl, Nat.le_refl _⟩
    | other => exact ⟨info, rfl, Nat.le_refl _⟩

/-! ## C6: sendPrompt -/

/-- One reactive state update or engine call performed by `sendPrompt`, in
program order. `engineAwaitPrompt` marks the `await session.promptAsync`
call; everything before it in the trace happens before the engine call
resolves. -/
inductive PromptEv
  | setBusy (b : Bool)
  | setBusyLabel (label : Option String)
  | setBusyStartedAt (startedAt : Option Int)
  | setError (message : Option String)
  | setLastPromptSent (text : String)
  | setPrompt (text : String)
  | engineAwaitPrompt (sessionID : String) (text : String)
  | setSessionModel (sessionID : String)
  | clearSessionModelOverride (sessionID : String)
  | reloadSessions
deriving DecidableEq

/-- `sendPrompt` from the App component as the trace of updates it performs:
guards first (no client, no selected session, blank trimmed prompt), then the
busy/error setup, the optimistic `lastPromptSent`/`prompt` updates, the
engine call, the outcome-dependent updates (session-model bookkeeping and
session reload on success, the error message on failure), and the `finally`
block resets. -/
def sendPrompt (hasClient : Bool) (sessionID : Option String) (promptText : String)
    (now : Int) (outcome : Except String Unit) : List PromptEv :=
  if !hasClient then []
  else
    match sessionID with
    | none => []
    | some sid =>
      let content := jsTrim promptText
      if content = "" then []
      else
        [PromptEv.setBusy true, PromptEv.setBusyLabel (some "Running"),
          PromptEv.setBusyStartedAt (some now), PromptEv.setError none,
          PromptEv.setLastPromptSent content, PromptEv.setPrompt "",
          PromptEv.engineAwaitPrompt sid content] ++
        (match outcome with
          | Except.ok _ =>
            [PromptEv.setSessionModel sid, PromptEv.clearSessionModelOverride sid,
              PromptEv.reloadSessions]
          | Except.error msg => [PromptEv.setError (some msg)]) ++
        [PromptEv.setBusy false, PromptEv.setBusyLabel none,
          PromptEv.setBusyStartedAt none]

/-- C6: with a connected client, a selected session, and a non-blank trimmed
prompt, `sendPrompt` records the trimmed content as `lastPromptSent` and
clears the prompt input strictly before the engine call, holds `busy = true`
with label `Running` across the call (no busy/label/started-at update occurs
between the setup and the `finally` block), and resets all three afterwards
whether the call succeeds or fails; when the client is null, no session is
selected, or the trimmed prompt is blank, it performs no update at all. -/
theorem sendPrompt_spec (hasClient : Bool) (sessionID : Option String)
    (promptText : String) (now : Int) (outcome : Except String Unit) :
    ((hasClient = false ∨ sessionID = none ∨ jsTrim promptText = "") →
      sendPrompt hasClient sessionID promptText now outcome = []) ∧
    (∀ sid, hasClient = true → sessionID = some sid → jsTrim promptText ≠ "" →
      ∃ mid,
        sendPrompt hasClient sessionID promptText now outcome =
          [PromptEv.setBusy true, PromptEv.setBusyLabel (some "Running"),
            PromptEv.setBusyStartedAt (some now), PromptEv.setError none,
            PromptEv.setLastPromptSent (jsTrim promptText), PromptEv.setPrompt "",
            PromptEv.engineAwaitPrompt sid (jsTrim promptText)] ++ mid ++
          [PromptEv.setBusy false, PromptEv.setBusyLabel none,
            PromptEv.setBusyStartedAt none] ∧
        (∀ b, PromptEv.setBusy b ∉ mid) ∧
        (∀ l, PromptEv.setBusyLabel l ∉ mid) ∧
        (∀ t, PromptEv.setBusyStartedAt t ∉ mid) ∧
        (outcome = Except.ok () → mid =
          [PromptEv.setSessionModel sid, PromptEv.clearSessionModelOverride sid,
            PromptEv.reloadSessions]) ∧
        (∀ msg, outcome = Except.error msg →
          mid = [PromptEv.setError (some msg)])) := by
  constructor
  · rintro (h | h | h)
    · simp [sendPrompt, h]
    · cases hasClient <;> simp [sendPrompt, h]
    · unfold sendPrompt
      cases hasClient with
      | false => simp
      | true =>
        cases sessionID with
        | none => simp
        | some sid => simp [h]
  · intro sid hc hsid hne
    subst hc
    subst hsid
    cases outcome with
    | ok u =>
      cases u
      refine ⟨[PromptEv.setSessionModel sid, PromptEv.clearSessionModelOverride sid,
        PromptEv.reloadSessions], ?_, ?_, ?_, ?_, fun _ => rfl, fun msg h => by simp at h⟩
      · simp [sendPrompt, hne]
      · intro b; simp
      · intro l; simp
      · intro t; simp
    | error msg =>
      refine ⟨[PromptEv.setError (some msg)], ?_, ?_, ?_, ?_,
        fun h => by simp at h, fun m hm => ?_⟩
      · simp [sendPrompt, hne]
      · intro b; simp
      · intro l; simp
      · intro t; simp
      · obtain rfl : msg = m := by
          simpa using congrArg (fun x => match x with
            | Except.error e => e
            | _ => msg) hm
        rfl

/-- C6 witness: a concrete successful run with session `s1` and prompt
`" hi "`, showing the full trace shape. -/
theorem sendPrompt_spec_witness :
    sendPrompt true (some "s1") " hi " 7 (Except.ok ()) =
      [PromptEv.setBusy true, PromptEv.setBusyLabel (some "Running"),
        PromptEv.setBusyStartedAt (some 7), PromptEv.setError none,
        PromptEv.setLastPromptSent "hi", PromptEv.setPrompt "",
        PromptEv.engineAwaitPrompt "s1" "hi", PromptEv.setSessionModel "s1",
        PromptEv.clearSessionModelOverride "s1", PromptEv.reloadSessions,
        PromptEv.setBusy false, PromptEv.setBusyLabel none,
        PromptEv.setBusyStartedAt none] := by
  obtain ⟨mid, htrace, -, -, -, hok, -⟩ :=
    (sendPrompt_spec true (some "s1") " hi " 7 (Except.ok ())).2 "s1" rfl rfl (by decide)
  rw [htrace, hok rfl]
  decide

/-! ## C1: addPlugin -/

/-- A write performed by `addPlugin` through `writeOpencodeConfig`, kept
structural: a fresh document with fields `$schema` and `plugin` (serialised
externally by `JSON.stringify(payload, null, 2)`), or a jsonc text edit
(`modify`/`applyEdits` of the external jsonc-parser package) replacing the
`plugin` array with `next` while preserving the rest of the config text. -/
inductive ConfigWrite
  | freshDoc (schema : String) (plugins : List String)
  | pluginEdit (next : List String)
deriving DecidableEq

/-- The outcome of one `addPlugin` call: the write if any; how the plugin
status signal ends (`none` = untouched, `some none` = cleared to null,
`some (some m)` = set to the message `m`); whether a reload was marked; and
whether the manual input field was cleared. -/
structure AddPluginResult where
  wrote : Option ConfigWrite
  statusUpdate : Option (Option String)
  reloadMarked : Bool
  inputCleared : Bool
deriving DecidableEq

/-- `addPlugin` from the extensions store. The helpers `stripPluginVersion`
and `parsePluginListFromContent` live in the plugins module, outside the
staged sources, so they are parameters: every theorem below holds for any
behaviour of theirs. Control flow follows the source: the Tauri-runtime
guard, the blank-name guard (status only for manual input), the
project-scope guard, the blank-config fresh write, the duplicate check on
version-stripped lower-cased names, then the jsonc append. -/
def addPlugin (stripPluginVersion : String → String)
    (parsePluginListFromContent : String → List String)
    (tauriRuntime : Bool) (pluginInput : String) (overrideName : Option String)
    (scope : String) (projectDir : String) (configContent : Option String) :
    AddPluginResult :=
  if !tauriRuntime then
    ⟨none, some (some "Plugin management is only available in Host mode."), false, false⟩
  else
    let pluginName := jsTrim (overrideName.getD pluginInput)
    let isManualInput := overrideName.isNone
    if pluginName = "" then
      ⟨none, if isManualInput then some (some "Enter a plugin package name.") else none,
        false, false⟩
    else if scope = "project" ∧ jsTrim projectDir = "" then
      ⟨none, some (some "Pick a project folder to manage project plugins."), false, false⟩
    else
      let raw := configContent.getD ""
      if jsTrim raw = "" then
        ⟨some (ConfigWrite.freshDoc "https://opencode.ai/config.json" [pluginName]),
          some none, true, isManualInput⟩
      else
        let plugins := parsePluginListFromContent raw
        let desired := jsToLower (stripPluginVersion pluginName)
        if plugins.any (fun entry => jsToLower (stripPluginVersion entry) == desired) then
          ⟨none, some (some "Plugin already listed in opencode.json."), false, false⟩
        else
          ⟨some (ConfigWrite.pluginEdit (plugins ++ [pluginName])), some none, true,
            isManualInput⟩

/-- C1: in a Tauri runtime, with a non-blank plugin name and a resolvable
target config (not project scope with a blank project directory): a blank
current config is replaced by a fresh document with the opencode schema and
the one-element plugin array; if some parsed entry equals the new name after
version-stripping and lower-casing, nothing is written and the status becomes
`Plugin already listed in opencode.json.`; otherwise the name is appended to
the parsed plugin array by a jsonc edit that is written back. -/
theorem addPlugin_cases (stripPluginVersion : String → String)
    (parsePluginListFromContent : String → List String)
    (pluginInput : String) (overrideName : Option String)
    (scope : String) (projectDir : String) (configContent : Option String)
    (pluginName : String)
    (hname : jsTrim (overrideName.getD pluginInput) = pluginName)
    (hne : pluginName ≠ "")
    (hdir : ¬(scope = "project" ∧ jsTrim projectDir = "")) :
    (jsTrim (configContent.getD "") = "" →
      addPlugin stripPluginVersion parsePluginListFromContent true pluginInput
          overrideName scope projectDir configContent =
        ⟨some (ConfigWrite.freshDoc "https://opencode.ai/config.json" [pluginName]),
          some none, true, overrideName.isNone⟩) ∧
    (jsTrim (configContent.getD "") ≠ "" →
      (∃ entry ∈ parsePluginListFromContent (configContent.getD ""),
          jsToLower (stripPluginVersion entry) = jsToLower (stripPluginVersion pluginName)) →
      addPlugin stripPluginVersion parsePluginListFromContent true pluginInput
          overrideName scope projectDir configContent =
        ⟨none, some (some "Plugin already listed in opencode.json."), false, false⟩) ∧
    (jsTrim (configContent.getD "") ≠ "" →
      (∀ entry ∈ parsePluginListFromContent (configContent.getD ""),
          jsToLower (stripPluginVersion entry) ≠ jsToLower (stripPluginVersion pluginName)) →
      addPlugin stripPluginVersion parsePluginListFromContent true pluginInput
          overrideName scope projectDir configContent =
        ⟨some (ConfigWrite.pluginEdit
            (parsePluginListFromContent (configContent.getD "") ++ [pluginName])),
          some none, true, overrideName.isNone⟩) := by
  refine ⟨?_, ?_, ?_⟩
  · intro hblank
    simp only [addPlugin, Bool.not_true, hname]
    rw [if_neg (by simp), if_neg hne, if_neg hdir, if_pos hblank]
  · intro hfull hdup
    have hany : (parsePluginListFromContent (configContent.getD "")).any
        (fun entry => jsToLower (stripPluginVersion entry) ==
          jsToLower (stripPluginVersion pluginName)) = true := by
      rw [List.any_eq_true]
      obtain ⟨entry, hmem, heq⟩ := hdup
      exact ⟨entry, hmem, by simp [heq]⟩
    simp only [addPlugin, Bool.not_true, hname]
    rw [if_neg (by simp), if_neg hne, if_neg hdir, if_neg hfull, if_pos hany]
  · intro hfull hnodup
    have hany : (parsePluginListFromContent (configContent.getD "")).any
        (fun entry => jsToLower (stripPluginVersion entry) ==
          jsToLower (stripPluginVersion pluginName)) = false := by
      rw [Bool.eq_false_iff]
      intro hc
      obtain ⟨entry, hmem, heq⟩ := List.any_eq_true.mp hc
      exact hnodup entry hmem (by simpa using heq)
    simp only [addPlugin, Bool.not_true, hname]
    rw [if_neg (by simp), if_neg hne, if_neg hdir, if_neg hfull, if_neg (by simp [hany])]

/-- C1 witness: with the identity version-stripper and a parser returning
`["alpha"]`, adding `Beta` to a non-blank config appends it; all three
hypotheses are discharged at this concrete input. -/
theorem addPlugin_cases_witness :
    addPlugin id (fun _ => ["alpha"]) true "" (some " Beta ") "global" ""
        (some "x") =
      ⟨some (ConfigWrite.pluginEdit ["alpha", "Beta"]), some none, true, false⟩ := by
  have h := (addPlugin_cases id (fun _ => ["alpha"]) "" (some " Beta ") "global" ""
    (some "x") "Beta" (by decide) (by decide) (by simp)).2.2 (by decide)
    (by intro entry hmem; simp at hmem; subst hmem; decide)
  exact h

/-! ## C2: loadWorkspaceTemplates -/

/-- A JSON value as `safeParseJson` can deliver one; numbers are the integral
`Date.now()` timestamps the template files hold. -/
inductive Json
  | str (s : String)
  | num (n : Int)
  | jsonBool (b : Bool)
  | null
  | arr (items : List Json)
  | obj (fields : List (String × Json))

/-- Property access `parsed.<key>` on a parsed JSON value. -/
def Json.getField : Json → String → Option Json
  | Json.obj fields, key => fields.lookup key
  | _, _ => none

/-- A node of the engine file API's directory listing. -/
structure FileNode where
  name : String
  path : String
  nodeType : String
  ignored : Bool
deriving DecidableEq

/-- A workspace or global template as the store holds it. -/
structure WorkspaceTemplate where
  id : String
  title : String
  description : String
  prompt : String
  createdAt : Int
  scope : String
deriving DecidableEq

/-- `node.name.replace(/\.json$/i, "")`: drop one case-insensitive `.json`
suffix. -/
def stripJsonExt (name : String) : String :=
  if jsEndsWith (jsToLower name) ".json" then ⟨name.data.take (name.data.length - 5)⟩
  else name

/-- `typeof parsed.prompt === "string" ? parsed.prompt : ""` in the template
loop. -/
def promptOfJson (parsed : Json) : String :=
  match parsed.getField "prompt" with
  | some (Json.str p) => p
  | _ => ""

/-- The body of the per-file loop in `loadWorkspaceTemplates`: read the file
(`none` models a non-text read), parse it through `safeParseJson` (a
parameter: the JSON parser is external), require a non-blank string `prompt`,
and fill the defaulted fields. -/
def templateOfNode (safeParseJson : String → Option Json)
    (readFile : String → Option String) (now : Int) (node : FileNode) :
    Option WorkspaceTemplate :=
  match readFile node.path with
  | none => none
  | some content =>
    match safeParseJson content with
    | none => none
    | some parsed =>
      if jsTrim (promptOfJson parsed) = "" then none
      else
        some
          { id := match parsed.getField "id" with
              | some (Json.str i) => i
              | _ => stripJsonExt node.name
            title := match parsed.getField "title" with
              | some (Json.str t) => t
              | _ => "Untitled"
            description := match parsed.getField "description" with
              | some (Json.str d) => d
              | _ => ""
            prompt := promptOfJson parsed
            createdAt := match parsed.getField "createdAt" with
              | some (Json.num c) => c
              | _ => now
            scope := "workspace" }

/-- `loadWorkspaceTemplates` from the App component: list
`.openwork/templates`, keep the non-ignored file nodes named `*.json`
(case-insensitive), map them through the loop body, sort by `createdAt`
descending (a stable sort, as `Array.prototype.sort` is), and replace the
workspace-scoped templates in the store while keeping the global-scoped
ones. -/
def loadWorkspaceTemplates (safeParseJson : String → Option Json)
    (readFile : String → Option String) (now : Int) (nodes : List FileNode)
    (current : List WorkspaceTemplate) : List WorkspaceTemplate :=
  let jsonFiles := (nodes.filter (fun n => n.nodeType == "file" && !n.ignored)).filter
    (fun n => jsEndsWith (jsToLower n.name) ".json")
  let loaded := jsonFiles.filterMap (templateOfNode safeParseJson readFile now)
  let stable := loaded.mergeSort (fun a b => decide (b.createdAt ≤ a.createdAt))
  stable ++ current.filter (fun t => t.scope == "global")

theorem templateOfNode_char (safeParseJson : String → Option Json)
    (readFile : String → Option String) (now : Int) (node : FileNode)
    (t : WorkspaceTemplate)
    (h : templateOfNode safeParseJson readFile now node = some t) :
    t.scope = "workspace" ∧
    ∃ content parsed promptText,
      readFile node.path = some content ∧
      safeParseJson content = some parsed ∧
      parsed.getField "prompt" = some (Json.str promptText) ∧
      jsTrim promptText ≠ "" ∧
      t.prompt = promptText ∧
      t.title = (match parsed.getField "title" with
        | some (Json.str s) => s
        | _ => "Untitled") ∧
      t.description = (match parsed.getField "description" with
        | some (Json.str s) => s
        | _ => "") ∧
      t.id = (match parsed.getField "id" with
        | some (Json.str s) => s
        | _ => stripJsonExt node.name) ∧
      t.createdAt = (match parsed.getField "createdAt" with
        | some (Json.num n) => n
        | _ => now) := by
  unfold templateOfNode at h
  split at h
  · exact absurd h (by simp)
  next content hr =>
    split at h
    · exact absurd h (by simp)
    next parsed hp =>
      by_cases hb : jsTrim (promptOfJson parsed) = ""
      · rw [if_pos hb] at h
        exact absurd h (by simp)
      · rw [if_neg hb] at h
        obtain rfl : _ = t := Option.some.inj h
        have hstr : parsed.getField "prompt" = some (Json.str (promptOfJson parsed)) := by
          cases hf : parsed.getField "prompt" with
          | none =>
            exact absurd (by unfold promptOfJson; rw [hf]; rfl) hb
          | some v =>
            cases v with
            | str p =>
              unfold promptOfJson
              rw [hf]
            | num n => exact absurd (by unfold promptOfJson; rw [hf]; rfl) hb
            | jsonBool b => exact absurd (by unfold promptOfJson; rw [hf]; rfl) hb
            | null => exact absurd (by unfold promptOfJson; rw [hf]; rfl) hb
            | arr items => exact absurd (by unfold promptOfJson; rw [hf]; rfl) hb
            | obj fields => exact absurd (by unfold promptOfJson; rw [hf]; rfl) hb
        exact ⟨rfl, content, parsed, promptOfJson parsed, hr, hp, hstr, hb, rfl, rfl,
          rfl, rfl, rfl⟩

/-- C2: `loadWorkspaceTemplates` keeps exactly the non-ignored file nodes
named `*.json` (case-insensitive) whose content loads as a template (text
that parses as JSON with a non-blank string `prompt`, per
`templateOfNode_char`), sorts them by `createdAt` descending, and installs
them as the workspace-scoped part of the store while every global-scoped
template of the current store is preserved. -/
theorem loadWorkspaceTemplates_spec (safeParseJson : String → Option Json)
    (readFile : String → Option String) (now : Int) (nodes : List FileNode)
    (current : List WorkspaceTemplate) :
    ∃ stable,
      loadWorkspaceTemplates safeParseJson readFile now nodes current =
        stable ++ current.filter (fun t => t.scope == "global") ∧
      stable.Perm
        ((nodes.filter (fun n =>
            n.nodeType == "file" && !n.ignored &&
              jsEndsWith (jsToLower n.name) ".json")).filterMap
          (templateOfNode safeParseJson readFile now)) ∧
      List.Pairwise (fun a b => b.createdAt ≤ a.createdAt) stable ∧
      (∀ t ∈ stable, t.scope = "workspace") ∧
      (loadWorkspaceTemplates safeParseJson readFile now nodes current).filter
          (fun t => t.scope == "global") =
        current.filter (fun t => t.scope == "global") ∧
      ((loadWorkspaceTemplates safeParseJson readFile now nodes current).filter
          (fun t => t.scope == "workspace")).Perm
        ((nodes.filter (fun n =>
            n.nodeType == "file" && !n.ignored &&
              jsEndsWith (jsToLower n.name) ".json")).filterMap
          (templateOfNode safeParseJson readFile now)) := by
  classical
  set loaded := ((nodes.filter (fun n => n.nodeType == "file" && !n.ignored)).filter
    (fun n => jsEndsWith (jsToLower n.name) ".json")).filterMap
    (templateOfNode safeParseJson readFile now) with hloaded
  set stable := loaded.mergeSort (fun a b => decide (b.createdAt ≤ a.createdAt)) with hstable
  have hfilters : (nodes.filter (fun n => n.nodeType == "file" && !n.ignored)).filter
      (fun n => jsEndsWith (jsToLower n.name) ".json") =
      nodes.filter (fun n =>
        n.nodeType == "file" && !n.ignored && jsEndsWith (jsToLower n.name) ".json") := by
    rw [List.filter_filter]
    apply List.filter_congr
    intro n _
    exact Bool.and_comm _ _
  have hperm : stable.Perm loaded := List.mergeSort_perm loaded _
  have hpermSpec : stable.Perm
      ((nodes.filter (fun n =>
          n.nodeType == "file" && !n.ignored &&
            jsEndsWith (jsToLower n.name) ".json")).filterMap
        (templateOfNode safeParseJson readFile now)) := by
    rw [hloaded, hfilters] at hperm
    exact hperm
  have hsorted : List.Pairwise
      (fun a b : WorkspaceTemplate => b.createdAt ≤ a.createdAt) stable := by
    have h := @List.sorted_mergeSort WorkspaceTemplate
      (fun a b : WorkspaceTemplate => decide (b.createdAt ≤ a.createdAt))
      (fun a b c hab hbc => by
        simp only [decide_eq_true_eq] at hab hbc ⊢
        exact le_trans hbc hab)
      (fun a b => by
        simp only [Bool.or_eq_true, decide_eq_true_eq]
        exact le_total b.createdAt a.createdAt)
      loaded
    exact h.imp (fun hab => by simpa using hab)
  have hscope : ∀ t ∈ stable, t.scope = "workspace" := by
    intro t ht
    have : t ∈ loaded := hperm.mem_iff.mp ht
    rw [hloaded] at this
    obtain ⟨n, -, hn⟩ := List.mem_filterMap.mp this
    exact (templateOfNode_char safeParseJson readFile now n t hn).1
  have hnext : loadWorkspaceTemplates safeParseJson readFile now nodes current =
      stable ++ current.filter (fun t => t.scope == "global") := rfl
  have hstableGlobal : stable.filter (fun t => t.scope == "global") = [] := by
    rw [List.filter_eq_nil_iff]
    intro t ht
    rw [hscope t ht]
    decide
  have hstableWs : stable.filter (fun t => t.scope == "workspace") = stable := by
    rw [List.filter_eq_self]
    intro t ht
    rw [hscope t ht]
    decide
  have hglobals : (current.filter (fun t => t.scope == "global")).filter
      (fun t => t.scope == "global") = current.filter (fun t => t.scope == "global") := by
    rw [List.filter_eq_self]
    intro t ht
    exact @List.of_mem_filter _ (fun t : WorkspaceTemplate => t.scope == "global") _ _ ht
  have hglobalsWs : (current.filter (fun t => t.scope == "global")).filter
      (fun t => t.scope == "workspace") = [] := by
    rw [List.filter_eq_nil_iff]
    intro t ht
    have hg : (t.scope == "global") = true :=
      @List.of_mem_filter _ (fun t : WorkspaceTemplate => t.scope == "global") _ _ ht
    rw [beq_iff_eq] at hg
    rw [hg]
    decide
  refine ⟨stable, hnext, hpermSpec, hsorted, hscope, ?_, ?_⟩
  · rw [hnext, List.filter_append, hstableGlobal, List.nil_append, hglobals]
  · rw [hnext, List.filter_append, hstableWs, hglobalsWs, List.append_nil]
    exact hpermSpec

/-! ## C3: preference persistence round-trip -/

/-- A model reference, `providerID` plus `modelID`. -/
structure ModelRef where
  providerID : String
  modelID : String
deriving DecidableEq

/-- `DEFAULT_MODEL` from app/constants.ts. -/
def DEFAULT_MODEL : ModelRef := ⟨"opencode", "gpt-5-nano"⟩

/-- Modelled from the spec: `formatModelRef` of the app utils module is not
in the staged sources; it writes a model reference in the
`providerID/modelID` form the source uses elsewhere for model keys. -/
def formatModelRef (m : ModelRef) : String :=
  m.providerID ++ "/" ++ m.modelID

/-- Split a character list at its first `/`. -/
def splitFirstSlash : List Char → Option (List Char × List Char)
  | [] => none
  | c :: rest =>
    if c = '/' then some ([], rest)
    else
      match splitFirstSlash rest with
      | some pm => some (c :: pm.1, pm.2)
      | none => none

/-- The body of `parseModelRef` on a present stored string. -/
def parseModelRefStr (s : String) : Option ModelRef :=
  match splitFirstSlash s.data with
  | none => none
  | some pm =>
    if pm.1 = [] ∨ pm.2 = [] then none
    else some ⟨⟨pm.1⟩, ⟨pm.2⟩⟩

/-- Modelled from the spec: `parseModelRef` of the app utils module is not in
the staged sources; it reads a stored `providerID/modelID` string back and
yields `none` for a missing or unparsable value. -/
def parseModelRef (stored : Option String) : Option ModelRef :=
  match stored with
  | none => none
  | some s => parseModelRefStr s

theorem splitFirstSlash_append (p m : List Char) (hp : '/' ∉ p) :
    splitFirstSlash (p ++ '/' :: m) = some (p, m) := by
  induction p with
  | nil => simp [splitFirstSlash]
  | cons c cs ih =>
    have hc : ¬ c = '/' := fun h => hp (h ▸ List.mem_cons_self c cs)
    have hcs : '/' ∉ cs := fun h => hp (List.mem_cons_of_mem c h)
    rw [List.cons_append]
    show splitFirstSlash (c :: (cs ++ '/' :: m)) = _
    simp only [splitFirstSlash, if_neg hc, ih hcs]

theorem parseModelRef_format (m : ModelRef) (hp : m.providerID ≠ "")
    (hslash : '/' ∉ m.providerID.data) (hm : m.modelID ≠ "") :
    parseModelRef (some (formatModelRef m)) = some m := by
  obtain ⟨p, mo⟩ := m
  obtain ⟨pd⟩ := p
  obtain ⟨md⟩ := mo
  have hdata : (formatModelRef ⟨⟨pd⟩, ⟨md⟩⟩).data = pd ++ '/' :: md := by
    show (String.mk pd ++ "/" ++ String.mk md).data = _
    rw [String.data_append, String.data_append]
    simp
  have hpd : pd ≠ [] := fun h => hp (by subst h; rfl)
  have hmd : md ≠ [] := fun h => hm (by subst h; rfl)
  show parseModelRefStr (formatModelRef ⟨⟨pd⟩, ⟨md⟩⟩) = _
  unfold parseModelRefStr
  rw [hdata, splitFirstSlash_append pd md (by simpa using hslash)]
  show (if pd = [] ∨ md = [] then none else some (⟨⟨pd⟩, ⟨md⟩⟩ : ModelRef)) = _
  rw [if_neg (by simp [hpd, hmd])]

/-- `JSON.stringify` of a boolean, as the show-thinking effect writes it. -/
def jsonOfBool (b : Bool) : String :=
  if b then "true" else "false"

/-- The boolean restore path of `JSON.parse(storedThinking)` with the
`typeof parsed === "boolean"` check: only the two boolean literals restore a
value. -/
def boolFromJson (s : String) : Option Bool :=
  if s = "true" then some true
  else if s = "false" then some false
  else none

/-- One decimal digit character. -/
def digitChar (d : Nat) : Char :=
  Char.ofNat (48 + d)

/-- The numeric value of one decimal digit character. -/
def digitVal (c : Char) : Option Nat :=
  if '0' ≤ c && c ≤ '9' then some (c.toNat - 48) else none

/-- The decimal digits of a natural number, most significant first: the
`String(n)` serialisation the update-check effect writes. -/
def toDecimal (n : Nat) : List Char :=
  if h : n < 10 then [digitChar n]
  else toDecimal (n / 10) ++ [digitChar (n % 10)]
termination_by n
decreasing_by exact Nat.div_lt_self (by omega) (by omega)

/-- `String(n)` for a timestamp. -/
def natToString (n : Nat) : String :=
  ⟨toDecimal n⟩

/-- Read decimal digits left to right. -/
def fromDecAux (acc : Nat) : List Char → Option Nat
  | [] => some acc
  | c :: cs =>
    match digitVal c with
    | some d => fromDecAux (acc * 10 + d) cs
    | none => none

/-- The restore path of `Number(storedUpdateCheckedAt)`: a non-empty decimal
numeral yields its value, anything else restores nothing. -/
def parseTimestamp (s : String) : Option Nat :=
  if s.data = [] then none else fromDecAux 0 s.data

theorem digitVal_digitChar (d : Nat) (h : d < 10) :
    digitVal (digitChar d) = some d := by
  interval_cases d <;> decide

theorem fromDecAux_append (acc : Nat) (xs ys : List Char) :
    fromDecAux acc (xs ++ ys) =
      match fromDecAux acc xs with
      | some a => fromDecAux a ys
      | none => none := by
  induction xs generalizing acc with
  | nil => rfl
  | cons c cs ih =>
    rw [List.cons_append]
    show fromDecAux acc (c :: (cs ++ ys)) = _
    cases hd : digitVal c with
    | none => simp [fromDecAux, hd]
    | some d =>
      simp only [fromDecAux, hd]
      exact ih _

theorem toDecimal_ne_nil (n : Nat) : toDecimal n ≠ [] := by
  by_cases h : n < 10 <;> rw [toDecimal] <;> simp [h]

theorem fromDecAux_toDecimal (n : Nat) :
    ∀ acc, fromDecAux acc (toDecimal n) =
      some (acc * 10 ^ (toDecimal n).length + n) := by
  induction n using Nat.strong_induction_on with
  | _ n ih =>
    intro acc
    by_cases h : n < 10
    · rw [toDecimal, dif_pos h]
      simp only [fromDecAux, digitVal_digitChar n h, List.length_cons,
        List.length_nil, pow_one]
      rfl
    · rw [toDecimal, dif_neg h]
      rw [fromDecAux_append]
      have h10 : n / 10 < n := Nat.div_lt_self (by omega) (by omega)
      rw [ih (n / 10) h10 acc]
      have hm : n % 10 < 10 := Nat.mod_lt _ (by omega)
      simp only [fromDecAux, digitVal_digitChar _ hm, List.length_append,
        List.length_cons, List.length_nil]
      congr 1
      rw [pow_succ, ← Nat.mul_assoc]
      omega

theorem parseTimestamp_natToString (n : Nat) :
    parseTimestamp (natToString n) = some n := by
  unfold parseTimestamp natToString
  rw [if_neg (by simpa using toDecimal_ne_nil n)]
  rw [show (String.mk (toDecimal n)).data = toDecimal n from rfl]
  rw [fromDecAux_toDecimal n 0]
  simp

/-- `localStorage.setItem(key, value)`: replace any entry at `key`. -/
def setItem (store : LocalStorage) (key value : String) : LocalStorage :=
  store.filter (fun kv => kv.1 != key) ++ [(key, value)]

/-- `localStorage.getItem(key)`. -/
def getItem (store : LocalStorage) (key : String) : Option String :=
  store.lookup key

theorem lookup_filterKey_self (store : LocalStorage) (k : String) :
    (store.filter (fun kv => kv.1 != k)).lookup k = none := by
  induction store with
  | nil => rfl
  | cons kv l ih =>
    rw [List.filter_cons]
    by_cases h : kv.1 = k
    · rw [if_neg (by simp [h])]
      exact ih
    · rw [if_pos (by simp [h])]
      simp only [List.lookup]
      rw [show (k == kv.1) = false by simp [Ne.symm h]]
      exact ih

theorem lookup_filterKey_ne (store : LocalStorage) (k k' : String) (h : k' ≠ k) :
    (store.filter (fun kv => kv.1 != k)).lookup k' = store.lookup k' := by
  induction store with
  | nil => rfl
  | cons kv l ih =>
    rw [List.filter_cons]
    by_cases h1 : kv.1 = k
    · rw [if_neg (by simp [h1])]
      rw [ih]
      simp only [List.lookup]
      rw [show (k' == kv.1) = false by rw [h1]; simp [h]]
    · rw [if_pos (by simp [h1])]
      simp only [List.lookup]
      cases hkk : (k' == kv.1) with
      | true => rfl
      | false => exact ih

theorem lookup_append_pairs (l1 l2 : LocalStorage) (k : String) :
    (l1 ++ l2).lookup k =
      match l1.lookup k with
      | some v => some v
      | none => l2.lookup k := by
  induction l1 with
  | nil => rfl
  | cons kv l ih =>
    rw [List.cons_append]
    simp only [List.lookup]
    cases hkk : (k == kv.1) with
    | true => rfl
    | false => exact ih

theorem getItem_setItem_self (store : LocalStorage) (k v : String) :
    getItem (setItem store k v) k = some v := by
  unfold getItem setItem
  rw [lookup_append_pairs, lookup_filterKey_self]
  simp [List.lookup]

theorem getItem_setItem_ne (store : LocalStorage) (k v k' : String) (h : k' ≠ k) :
    getItem (setItem store k v) k' = getItem store k' := by
  unfold getItem setItem
  rw [lookup_append_pairs, lookup_filterKey_ne store k k' h]
  cases hl : store.lookup k' with
  | some w => rfl
  | none =>
    simp only [List.lookup]
    rw [show (k' == k) = false by simp [h]]

theorem getItem_removeItem_self (store : LocalStorage) (k : String) :
    getItem (removeItem store k) k = none := by
  unfold getItem removeItem
  exact lookup_filterKey_self store k

theorem getItem_removeItem_ne (store : LocalStorage) (k k' : String) (h : k' ≠ k) :
    getItem (removeItem store k) k' = getItem store k' := by
  unfold getItem removeItem
  exact lookup_filterKey_ne store k k' h

/-- The engine source preference, `path` or `sidecar`. -/
inductive EngineSource
  | path
  | sidecar
deriving DecidableEq

/-- The string stored for an engine source. -/
def engineSourceStr : EngineSource → String
  | EngineSource.path => "path"
  | EngineSource.sidecar => "sidecar"

/-- The preference state the eight claimed persistence effects of the App
component write: base URL, client directory, engine source, default model,
show-thinking flag, model variant, update auto-check flag, and the last
update-check time (the `idle` update status's `lastCheckedAt`; `none` when no
check has completed). -/
structure Prefs where
  baseUrl : String
  clientDirectory : String
  engineSource : EngineSource
  defaultModel : ModelRef
  showThinking : Bool
  modelVariant : Option String
  updateAutoCheck : Bool
  updateLastCheckedAt : Option Nat
deriving DecidableEq

/-- The initial preference signal values (`createSignal` initialisers of the
App component). Modelled from the spec: the updater module is not staged; its
initial state has auto-check on and no recorded check time. -/
def defaultPrefs : Prefs :=
  ⟨"http://127.0.0.1:4096", "", EngineSource.path, DEFAULT_MODEL, false, none, true, none⟩

/-- The model-variant persistence effect: the key is set while the variant is
non-null and non-blank and removed otherwise. -/
def persistVariant (store : LocalStorage) (variant : Option String) : LocalStorage :=
  match variant with
  | some v =>
    if v ≠ "" then setItem store "openwork.modelVariant" v
    else removeItem store "openwork.modelVariant"
  | none => removeItem store "openwork.modelVariant"

/-- The update-check persistence effect: written only for an `idle` status
with a truthy `lastCheckedAt`. -/
def persistTimestamp (store : LocalStorage) (ts : Option Nat) : LocalStorage :=
  match ts with
  | some n =>
    if n ≠ 0 then setItem store "openwork.updateLastCheckedAt" (natToString n)
    else store
  | none => store

/-- The preference-persistence `createEffect`s of the App component for the
eight claimed preferences, applied in registration order (the legacy
`openwork.projectDir` and the `openwork.templates` effects persist state
outside these preferences). -/
def persistPrefs (p : Prefs) (store : LocalStorage) : LocalStorage :=
  persistTimestamp
    (persistVariant
      (setItem
        (setItem
          (setItem
            (setItem
              (setItem
                (setItem store "openwork.baseUrl" p.baseUrl)
                "openwork.clientDirectory" p.clientDirectory)
              "openwork.engineSource" (engineSourceStr p.engineSource))
            "openwork.defaultModel" (formatModelRef p.defaultModel))
          "openwork.updateAutoCheck" (if p.updateAutoCheck then "1" else "0"))
        "openwork.showThinking" (jsonOfBool p.showThinking))
      p.modelVariant)
    p.updateLastCheckedAt

/-- The `storedBaseUrl` read of `onMount`. -/
def applyBaseUrl (store : LocalStorage) (p : Prefs) : Prefs :=
  match getItem store "openwork.baseUrl" with
  | some v => if v ≠ "" then { p with baseUrl := v } else p
  | none => p

/-- The `storedClientDir` read of `onMount`. -/
def applyClientDirectory (store : LocalStorage) (p : Prefs) : Prefs :=
  match getItem store "openwork.clientDirectory" with
  | some v => if v ≠ "" then { p with clientDirectory := v } else p
  | none => p

/-- The `storedEngineSource` read of `onMount`, guarded to the two legal
values. -/
def applyEngineSource (store : LocalStorage) (p : Prefs) : Prefs :=
  match getItem store "openwork.engineSource" with
  | some v =>
    if v = "path" then { p with engineSource := EngineSource.path }
    else if v = "sidecar" then { p with engineSource := EngineSource.sidecar }
    else p
  | none => p

/-- The `storedDefaultModel` read of `onMount`: an unparsable value falls
back to `DEFAULT_MODEL`, which is rewritten to storage. -/
def applyDefaultModel (store : LocalStorage) (p : Prefs) : Prefs × LocalStorage :=
  match parseModelRef (getItem store "openwork.defaultModel") with
  | some m => ({ p with defaultModel := m }, store)
  | none => ({ p with defaultModel := DEFAULT_MODEL },
      setItem store "openwork.defaultModel" (formatModelRef DEFAULT_MODEL))

/-- The `storedThinking` read of `onMount`: only a JSON boolean restores. -/
def applyShowThinking (store : LocalStorage) (p : Prefs) : Prefs :=
  match getItem store "openwork.showThinking" with
  | some v =>
    match boolFromJson v with
    | some b => { p with showThinking := b }
    | none => p
  | none => p

/-- The `storedVariant` read of `onMount`: a non-blank value restores its
trimmed form. -/
def applyVariant (store : LocalStorage) (p : Prefs) : Prefs :=
  match getItem store "openwork.modelVariant" with
  | some v =>
    if v ≠ "" ∧ jsTrim v ≠ "" then { p with modelVariant := some (jsTrim v) } else p
  | none => p

/-- The `storedUpdateAutoCheck` read of `onMount`, guarded to `0`/`1`. -/
def applyAutoCheck (store : LocalStorage) (p : Prefs) : Prefs :=
  match getItem store "openwork.updateAutoCheck" with
  | some v =>
    if v = "0" ∨ v = "1" then { p with updateAutoCheck := (v == "1") } else p
  | none => p

/-- The `storedUpdateCheckedAt` read of `onMount`: a finite positive number
restores the idle last-checked time. -/
def applyTimestamp (store : LocalStorage) (p : Prefs) : Prefs :=
  match getItem store "openwork.updateLastCheckedAt" with
  | some v =>
    match parseTimestamp v with
    | some n => if 0 < n then { p with updateLastCheckedAt := some n } else p
    | none => p
  | none => p

/-- `onMount` of the App component restricted to the preference reads, in
source order; the returned store reflects the default-model rewrite. -/
def mountRestore (store : LocalStorage) (init : Prefs) : Prefs × LocalStorage :=
  let p3 := applyEngineSource store (applyClientDirectory store (applyBaseUrl store init))
  let pair := applyDefaultModel store p3
  (applyTimestamp pair.2 (applyAutoCheck pair.2 (applyVariant pair.2
    (applyShowThinking pair.2 pair.1))), pair.2)

theorem boolFromJson_jsonOfBool (b : Bool) : boolFromJson (jsonOfBool b) = some b := by
  cases b <;> decide

theorem getItem_persistVariant_ne (store : LocalStorage) (variant : Option String)
    (k : String) (h : k ≠ "openwork.modelVariant") :
    getItem (persistVariant store variant) k = getItem store k := by
  cases variant with
  | none => exact getItem_removeItem_ne store _ k h
  | some v =>
    by_cases hv : v = ""
    · rw [show persistVariant store (some v) = removeItem store "openwork.modelVariant" from by
        show (if v ≠ "" then setItem store "openwork.modelVariant" v
          else removeItem store "openwork.modelVariant") =
          removeItem store "openwork.modelVariant"
        rw [if_neg (by simp [hv])]]
      exact getItem_removeItem_ne store _ k h
    · rw [show persistVariant store (some v) =
          setItem store "openwork.modelVariant" v from by
        show (if v ≠ "" then setItem store "openwork.modelVariant" v
          else removeItem store "openwork.modelVariant") =
          setItem store "openwork.modelVariant" v
        rw [if_pos hv]]
      exact getItem_setItem_ne store _ v k h

theorem getItem_persistTimestamp_ne (store : LocalStorage) (ts : Option Nat)
    (k : String) (h : k ≠ "openwork.updateLastCheckedAt") :
    getItem (persistTimestamp store ts) k = getItem store k := by
  cases ts with
  | none => rfl
  | some n =>
    by_cases hn : n = 0
    · rw [show persistTimestamp store (some n) = store from by
        show (if n ≠ 0 then setItem store "openwork.updateLastCheckedAt" (natToString n)
          else store) = store
        rw [if_neg (by simp [hn])]]
    · rw [show persistTimestamp store (some n) =
          setItem store "openwork.updateLastCheckedAt" (natToString n) from by
        show (if n ≠ 0 then setItem store "openwork.updateLastCheckedAt" (natToString n)
          else store) = setItem store "openwork.updateLastCheckedAt" (natToString n)
        rw [if_pos hn]]
      exact getItem_setItem_ne store _ _ k h

theorem applyBaseUrl_set (store : LocalStorage) (q : Prefs) (u : String)
    (hget : getItem store "openwork.baseUrl" = some u) (hu : u ≠ "") :
    applyBaseUrl store q = { q with baseUrl := u } := by
  unfold applyBaseUrl
  rw [hget]
  show (if u ≠ "" then { q with baseUrl := u } else q) = _
  rw [if_pos hu]

theorem applyClientDirectory_set (store : LocalStorage) (q : Prefs) (u : String)
    (hget : getItem store "openwork.clientDirectory" = some u) (hu : u ≠ "") :
    applyClientDirectory store q = { q with clientDirectory := u } := by
  unfold applyClientDirectory
  rw [hget]
  show (if u ≠ "" then { q with clientDirectory := u } else q) = _
  rw [if_pos hu]

theorem applyClientDirectory_keep (store : LocalStorage) (q : Prefs)
    (hget : getItem store "openwork.clientDirectory" = some "") :
    applyClientDirectory store q = q := by
  unfold applyClientDirectory
  rw [hget]
  show (if "" ≠ "" then { q with clientDirectory := "" } else q) = _
  rw [if_neg (by simp)]

theorem applyEngineSource_set (store : LocalStorage) (q : Prefs) (es : EngineSource)
    (hget : getItem store "openwork.engineSource" = some (engineSourceStr es)) :
    applyEngineSource store q = { q with engineSource := es } := by
  unfold applyEngineSource
  rw [hget]
  cases es with
  | path =>
    show (if "path" = "path" then { q with engineSource := EngineSource.path }
      else if "path" = "sidecar" then { q with engineSource := EngineSource.sidecar }
      else q) = _
    rw [if_pos rfl]
  | sidecar =>
    show (if "sidecar" = "path" then { q with engineSource := EngineSource.path }
      else if "sidecar" = "sidecar" then { q with engineSource := EngineSource.sidecar }
      else q) = _
    rw [if_neg (by decide), if_pos rfl]

theorem applyDefaultModel_parsed (store : LocalStorage) (q : Prefs) (m : ModelRef)
    (hm : parseModelRef (getItem store "openwork.defaultModel") = some m) :
    applyDefaultModel store q = ({ q with defaultModel := m }, store) := by
  unfold applyDefaultModel
  rw [hm]

theorem applyShowThinking_set (store : LocalStorage) (q : Prefs) (b : Bool)
    (hget : getItem store "openwork.showThinking" = some (jsonOfBool b)) :
    applyShowThinking store q = { q with showThinking := b } := by
  unfold applyShowThinking
  rw [hget]
  show (match boolFromJson (jsonOfBool b) with
    | some bb => { q with showThinking := bb }
    | none => q) = _
  rw [boolFromJson_jsonOfBool b]

theorem applyVariant_set (store : LocalStorage) (q : Prefs) (v : String)
    (hget : getItem store "openwork.modelVariant" = some v)
    (hv1 : v ≠ "") (hv2 : jsTrim v = v) :
    applyVariant store q = { q with modelVariant := some v } := by
  unfold applyVariant
  rw [hget]
  show (if v ≠ "" ∧ jsTrim v ≠ "" then { q with modelVariant := some (jsTrim v) }
    else q) = _
  rw [if_pos ⟨hv1, by rw [hv2]; exact hv1⟩, hv2]

theorem applyVariant_keep (store : LocalStorage) (q : Prefs)
    (hget : getItem store "openwork.modelVariant" = none) :
    applyVariant store q = q := by
  unfold applyVariant
  rw [hget]

theorem applyAutoCheck_set (store : LocalStorage) (q : Prefs) (ac : Bool)
    (hget : getItem store "openwork.updateAutoCheck" =
      some (if ac then "1" else "0")) :
    applyAutoCheck store q = { q with updateAutoCheck := ac } := by
  unfold applyAutoCheck
  rw [hget]
  cases ac with
  | true =>
    show (if ("1" = "0" ∨ "1" = "1") then { q with updateAutoCheck := ("1" == "1") }
      else q) = _
    rw [if_pos (Or.inr rfl)]
    show ({ q with updateAutoCheck := true } : Prefs) = _
    rfl
  | false =>
    show (if ("0" = "0" ∨ "0" = "1") then { q with updateAutoCheck := ("0" == "1") }
      else q) = _
    rw [if_pos (Or.inl rfl)]
    show ({ q with updateAutoCheck := false } : Prefs) = _
    rfl

theorem applyTimestamp_set (store : LocalStorage) (q : Prefs) (n : Nat)
    (hget : getItem store "openwork.updateLastCheckedAt" = some (natToString n))
    (hn : 0 < n) :
    applyTimestamp store q = { q with updateLastCheckedAt := some n } := by
  unfold applyTimestamp
  rw [hget]
  show (match parseTimestamp (natToString n) with
    | some nn => if 0 < nn then { q with updateLastCheckedAt := some nn } else q
    | none => q) = _
  rw [parseTimestamp_natToString n]
  show (if 0 < n then { q with updateLastCheckedAt := some n } else q) = _
  rw [if_pos hn]

theorem applyTimestamp_keep (store : LocalStorage) (q : Prefs)
    (hget : getItem store "openwork.updateLastCheckedAt" = none) :
    applyTimestamp store q = q := by
  unfold applyTimestamp
  rw [hget]

/-- C3 counterexample: a blank base URL is written to storage by the
persistence effect, yet remounting does not restore it: the read guard
`if (storedBaseUrl)` rejects the blank string and the base URL falls back to
the initial `http://127.0.0.1:4096`, so not every written preference value
round-trips. -/
theorem prefs_roundtrip_blank_baseUrl_cex :
    getItem (persistPrefs { defaultPrefs with baseUrl := "" } []) "openwork.baseUrl" =
      some "" ∧
    (mountRestore (persistPrefs { defaultPrefs with baseUrl := "" } [])
        defaultPrefs).1.baseUrl = "http://127.0.0.1:4096" ∧
    ("http://127.0.0.1:4096" : String) ≠ "" := by
  refine ⟨by decide, by decide, by decide⟩

/-- C3 (amended): every preference value is persisted under a key prefixed
`openwork.` (keys without the prefix are untouched), and remounting restores
every written preference value, provided the base URL is non-blank (a blank
stored base URL falls back to the default URL), the default model reference
is well-formed (non-empty slash-free provider, non-empty model id), the model
variant is trimmed and non-blank when set, the recorded check time is
positive, and the initial signal values are the defaults for the fields the
mount leaves untouched; an unparsable stored default model falls back to
`DEFAULT_MODEL` and is rewritten to storage. -/
theorem prefs_roundtrip_amended (p : Prefs) (store : LocalStorage) (init : Prefs)
    (hbase : p.baseUrl ≠ "")
    (hprov : p.defaultModel.providerID ≠ "")
    (hslash : '/' ∉ p.defaultModel.providerID.data)
    (hmid : p.defaultModel.modelID ≠ "")
    (hvar : ∀ v, p.modelVariant = some v → jsTrim v = v ∧ v ≠ "")
    (hts : ∀ n, p.updateLastCheckedAt = some n → 0 < n)
    (hstorets : p.updateLastCheckedAt = none →
      getItem store "openwork.updateLastCheckedAt" = none)
    (hinitCD : init.clientDirectory = "")
    (hinitVar : init.modelVariant = none)
    (hinitTs : init.updateLastCheckedAt = none) :
    (mountRestore (persistPrefs p store) init).1 = p ∧
    (∀ k, ¬ jsStartsWith k "openwork." = true →
      getItem (persistPrefs p store) k = getItem store k) ∧
    (∀ s, parseModelRef (some s) = none →
      (applyDefaultModel (setItem store "openwork.defaultModel" s)
          defaultPrefs).1.defaultModel = DEFAULT_MODEL ∧
      getItem (applyDefaultModel (setItem store "openwork.defaultModel" s)
          defaultPrefs).2 "openwork.defaultModel" =
        some (formatModelRef DEFAULT_MODEL)) := by
  set S6 := setItem (setItem (setItem (setItem (setItem
      (setItem store "openwork.baseUrl" p.baseUrl)
      "openwork.clientDirectory" p.clientDirectory)
      "openwork.engineSource" (engineSourceStr p.engineSource))
      "openwork.defaultModel" (formatModelRef p.defaultModel))
      "openwork.updateAutoCheck" (if p.updateAutoCheck then "1" else "0"))
      "openwork.showThinking" (jsonOfBool p.showThinking) with hS6
  have hSdef : persistPrefs p store =
      persistTimestamp (persistVariant S6 p.modelVariant) p.updateLastCheckedAt := rfl
  have g1 : getItem S6 "openwork.baseUrl" = some p.baseUrl := by
    rw [hS6, getItem_setItem_ne _ _ _ _ (by decide), getItem_setItem_ne _ _ _ _ (by decide),
      getItem_setItem_ne _ _ _ _ (by decide), getItem_setItem_ne _ _ _ _ (by decide),
      getItem_setItem_ne _ _ _ _ (by decide), getItem_setItem_self]
  have g2 : getItem S6 "openwork.clientDirectory" = some p.clientDirectory := by
    rw [hS6, getItem_setItem_ne _ _ _ _ (by decide), getItem_setItem_ne _ _ _ _ (by decide),
      getItem_setItem_ne _ _ _ _ (by decide), getItem_setItem_ne _ _ _ _ (by decide),
      getItem_setItem_self]
  have g3 : getItem S6 "openwork.engineSource" = some (engineSourceStr p.engineSource) := by
    rw [hS6, getItem_setItem_ne _ _ _ _ (by decide), getItem_setItem_ne _ _ _ _ (by decide),
      getItem_setItem_ne _ _ _ _ (by decide), getItem_setItem_self]
  have g4 : getItem S6 "openwork.defaultModel" = some (formatModelRef p.defaultModel) := by
    rw [hS6, getItem_setItem_ne _ _ _ _ (by decide), getItem_setItem_ne _ _ _ _ (by decide),
      getItem_setItem_self]
  have g5 : getItem S6 "openwork.updateAutoCheck" =
      some (if p.updateAutoCheck then "1" else "0") := by
    rw [hS6, getItem_setItem_ne _ _ _ _ (by decide), getItem_setItem_self]
  have g6 : getItem S6 "openwork.showThinking" = some (jsonOfBool p.showThinking) := by
    rw [hS6, getItem_setItem_self]
  have G1 : getItem (persistPrefs p store) "openwork.baseUrl" = some p.baseUrl := by
    rw [hSdef, getItem_persistTimestamp_ne _ _ _ (by decide),
      getItem_persistVariant_ne _ _ _ (by decide), g1]
  have G2 : getItem (persistPrefs p store) "openwork.clientDirectory" =
      some p.clientDirectory := by
    rw [hSdef, getItem_persistTimestamp_ne _ _ _ (by decide),
      getItem_persistVariant_ne _ _ _ (by decide), g2]
  have G3 : getItem (persistPrefs p store) "openwork.engineSource" =
      some (engineSourceStr p.engineSource) := by
    rw [hSdef, getItem_persistTimestamp_ne _ _ _ (by decide),
      getItem_persistVariant_ne _ _ _ (by decide), g3]
  have G4 : getItem (persistPrefs p store) "openwork.defaultModel" =
      some (formatModelRef p.defaultModel) := by
    rw [hSdef, getItem_persistTimestamp_ne _ _ _ (by decide),
      getItem_persistVariant_ne _ _ _ (by decide), g4]
  have G5 : getItem (persistPrefs p store) "openwork.updateAutoCheck" =
      some (if p.updateAutoCheck then "1" else "0") := by
    rw [hSdef, getItem_persistTimestamp_ne _ _ _ (by decide),
      getItem_persistVariant_ne _ _ _ (by decide), g5]
  have G6 : getItem (persistPrefs p store) "openwork.showThinking" =
      some (jsonOfBool p.showThinking) := by
    rw [hSdef, getItem_persistTimestamp_ne _ _ _ (by decide),
      getItem_persistVariant_ne _ _ _ (by decide), g6]
  have hparse : parseModelRef (getItem (persistPrefs p store) "openwork.defaultModel") =
      some p.defaultModel := by
    rw [G4]
    exact parseModelRef_format p.defaultModel hprov hslash hmid
  refine ⟨?_, ?_, ?_⟩
  · obtain ⟨ib, ic, ie, imod, ist, iv, ia, it⟩ := init
    simp only at hinitCD hinitVar hinitTs
    subst hinitCD
    subst hinitVar
    subst hinitTs
    have hp : p = ⟨p.baseUrl, p.clientDirectory, p.engineSource, p.defaultModel,
        p.showThinking, p.modelVariant, p.updateAutoCheck, p.updateLastCheckedAt⟩ := rfl
    simp only [mountRestore]
    rw [applyBaseUrl_set _ _ _ G1 hbase]
    by_cases hcd : p.clientDirectory = ""
    · rw [hcd] at G2
      rw [applyClientDirectory_keep _ _ G2]
      rw [applyEngineSource_set _ _ _ G3]
      rw [applyDefaultModel_parsed _ _ _ hparse]
      dsimp only
      rw [applyShowThinking_set _ _ _ G6]
      cases hmv : p.modelVariant with
      | none =>
        have G7 : getItem (persistPrefs p store) "openwork.modelVariant" = none := by
          rw [hSdef, hmv, getItem_persistTimestamp_ne _ _ _ (by decide)]
          exact getItem_removeItem_self S6 _
        rw [applyVariant_keep _ _ G7]
        rw [applyAutoCheck_set _ _ _ G5]
        cases hpt : p.updateLastCheckedAt with
        | none =>
          have G8 : getItem (persistPrefs p store) "openwork.updateLastCheckedAt" =
              none := by
            rw [hSdef, hpt]
            show getItem (persistVariant S6 p.modelVariant) "openwork.updateLastCheckedAt" = none
            rw [getItem_persistVariant_ne _ _ _ (by decide), hS6,
              getItem_setItem_ne _ _ _ _ (by decide), getItem_setItem_ne _ _ _ _ (by decide),
              getItem_setItem_ne _ _ _ _ (by decide), getItem_setItem_ne _ _ _ _ (by decide),
              getItem_setItem_ne _ _ _ _ (by decide), getItem_setItem_ne _ _ _ _ (by decide)]
            exact hstorets hpt
          rw [applyTimestamp_keep _ _ G8, hp, hcd, hmv, hpt]
        | some n =>
          have hn : 0 < n := hts n hpt
          have G8 : getItem (persistPrefs p store) "openwork.updateLastCheckedAt" =
              some (natToString n) := by
            rw [hSdef, hpt]
            rw [show persistTimestamp (persistVariant S6 p.modelVariant) (some n) =
                setItem (persistVariant S6 p.modelVariant)
                  "openwork.updateLastCheckedAt" (natToString n) from by
              show (if n ≠ 0 then _ else _) = _
              rw [if_pos (by omega)]]
            exact getItem_setItem_self _ _ _
          rw [applyTimestamp_set _ _ _ G8 hn, hp, hcd, hmv, hpt]
      | some v =>
        obtain ⟨hvt, hvne⟩ := hvar v hmv
        have G7 : getItem (persistPrefs p store) "openwork.modelVariant" = some v := by
          rw [hSdef, hmv, getItem_persistTimestamp_ne _ _ _ (by decide)]
          rw [show persistVariant S6 (some v) = setItem S6 "openwork.modelVariant" v from by
            show (if v ≠ "" then _ else _) = _
            rw [if_pos hvne]]
          exact getItem_setItem_self _ _ _
        rw [applyVariant_set _ _ _ G7 hvne hvt]
        rw [applyAutoCheck_set _ _ _ G5]
        cases hpt : p.updateLastCheckedAt with
        | none =>
          have G8 : getItem (persistPrefs p store) "openwork.updateLastCheckedAt" =
              none := by
            rw [hSdef, hpt]
            show getItem (persistVariant S6 p.modelVariant) "openwork.updateLastCheckedAt" = none
            rw [getItem_persistVariant_ne _ _ _ (by decide), hS6,
              getItem_setItem_ne _ _ _ _ (by decide), getItem_setItem_ne _ _ _ _ (by decide),
              getItem_setItem_ne _ _ _ _ (by decide), getItem_setItem_ne _ _ _ _ (by decide),
              getItem_setItem_ne _ _ _ _ (by decide), getItem_setItem_ne _ _ _ _ (by decide)]
            exact hstorets hpt
          rw [applyTimestamp_keep _ _ G8, hp, hcd, hmv, hpt]
        | some n =>
          have hn : 0 < n := hts n hpt
          have G8 : getItem (persistPrefs p store) "openwork.updateLastCheckedAt" =
              some (natToString n) := by
            rw [hSdef, hpt]
            rw [show persistTimestamp (persistVariant S6 p.modelVariant) (some n) =
                setItem (persistVariant S6 p.modelVariant)
                  "openwork.updateLastCheckedAt" (natToString n) from by
              show (if n ≠ 0 then _ else _) = _
              rw [if_pos (by omega)]]
            exact getItem_setItem_self _ _ _
          rw [applyTimestamp_set _ _ _ G8 hn, hp, hcd, hmv, hpt]
    · rw [applyClientDirectory_set _ _ _ G2 hcd]
      rw [applyEngineSource_set _ _ _ G3]
      rw [applyDefaultModel_parsed _ _ _ hparse]
      dsimp only
      rw [applyShowThinking_set _ _ _ G6]
      cases hmv : p.modelVariant with
      | none =>
        have G7 : getItem (persistPrefs p store) "openwork.modelVariant" = none := by
          rw [hSdef, hmv, getItem_persistTimestamp_ne _ _ _ (by decide)]
          exact getItem_removeItem_self S6 _
        rw [applyVariant_keep _ _ G7]
        rw [applyAutoCheck_set _ _ _ G5]
        cases hpt : p.updateLastCheckedAt with
        | none =>
          have G8 : getItem (persistPrefs p store) "openwork.updateLastCheckedAt" =
              none := by
            rw [hSdef, hpt]
            show getItem (persistVariant S6 p.modelVariant) "openwork.updateLastCheckedAt" = none
            rw [getItem_persistVariant_ne _ _ _ (by decide), hS6,
              getItem_setItem_ne _ _ _ _ (by decide), getItem_setItem_ne _ _ _ _ (by decide),
              getItem_setItem_ne _ _ _ _ (by decide), getItem_setItem_ne _ _ _ _ (by decide),
              getItem_setItem_ne _ _ _ _ (by decide), getItem_setItem_ne _ _ _ _ (by decide)]
            exact hstorets hpt
          rw [applyTimestamp_keep _ _ G8, hp, hmv, hpt]
        | some n =>
          have hn : 0 < n := hts n hpt
          have G8 : getItem (persistPrefs p store) "openwork.updateLastCheckedAt" =
              some (natToString n) := by
            rw [hSdef, hpt]
            rw [show persistTimestamp (persistVariant S6 p.modelVariant) (some n) =
                setItem (persistVariant S6 p.modelVariant)
                  "openwork.updateLastCheckedAt" (natToString n) from by
              show (if n ≠ 0 then _ else _) = _
              rw [if_pos (by omega)]]
            exact getItem_setItem_self _ _ _
          rw [applyTimestamp_set _ _ _ G8 hn, hp, hmv, hpt]
      | some v =>
        obtain ⟨hvt, hvne⟩ := hvar v hmv
        have G7 : getItem (persistPrefs p store) "openwork.modelVariant" = some v := by
          rw [hSdef, hmv, getItem_persistTimestamp_ne _ _ _ (by decide)]
          rw [show persistVariant S6 (some v) = setItem S6 "openwork.modelVariant" v from by
            show (if v ≠ "" then _ else _) = _
            rw [if_pos hvne]]
          exact getItem_setItem_self _ _ _
        rw [applyVariant_set _ _ _ G7 hvne hvt]
        rw [applyAutoCheck_set _ _ _ G5]
        cases hpt : p.updateLastCheckedAt with
        | none =>
          have G8 : getItem (persistPrefs p store) "openwork.updateLastCheckedAt" =
              none := by
            rw [hSdef, hpt]
            show getItem (persistVariant S6 p.modelVariant) "openwork.updateLastCheckedAt" = none
            rw [getItem_persistVariant_ne _ _ _ (by decide), hS6,
              getItem_setItem_ne _ _ _ _ (by decide), getItem_setItem_ne _ _ _ _ (by decide),
              getItem_setItem_ne _ _ _ _ (by decide), getItem_setItem_ne _ _ _ _ (by decide),
              getItem_setItem_ne _ _ _ _ (by decide), getItem_setItem_ne _ _ _ _ (by decide)]
            exact hstorets hpt
          rw [applyTimestamp_keep _ _ G8, hp, hmv, hpt]
        | some n =>
          have hn : 0 < n := hts n hpt
          have G8 : getItem (persistPrefs p store) "openwork.updateLastCheckedAt" =
              some (natToString n) := by
            rw [hSdef, hpt]
            rw [show persistTimestamp (persistVariant S6 p.modelVariant) (some n) =
                setItem (persistVariant S6 p.modelVariant)
                  "openwork.updateLastCheckedAt" (natToString n) from by
              show (if n ≠ 0 then _ else _) = _
              rw [if_pos (by omega)]]
            exact getItem_setItem_self _ _ _
          rw [applyTimestamp_set _ _ _ G8 hn, hp, hmv, hpt]
  · intro k hk
    have hk1 : k ≠ "openwork.baseUrl" := fun he => hk (by rw [he]; decide)
    have hk2 : k ≠ "openwork.clientDirectory" := fun he => hk (by rw [he]; decide)
    have hk3 : k ≠ "openwork.engineSource" := fun he => hk (by rw [he]; decide)
    have hk4 : k ≠ "openwork.defaultModel" := fun he => hk (by rw [he]; decide)
    have hk5 : k ≠ "openwork.updateAutoCheck" := fun he => hk (by rw [he]; decide)
    have hk6 : k ≠ "openwork.showThinking" := fun he => hk (by rw [he]; decide)
    have hk7 : k ≠ "openwork.modelVariant" := fun he => hk (by rw [he]; decide)
    have hk8 : k ≠ "openwork.updateLastCheckedAt" := fun he => hk (by rw [he]; decide)
    rw [hSdef, getItem_persistTimestamp_ne _ _ _ hk8, getItem_persistVariant_ne _ _ _ hk7,
      hS6, getItem_setItem_ne _ _ _ _ hk6, getItem_setItem_ne _ _ _ _ hk5,
      getItem_setItem_ne _ _ _ _ hk4, getItem_setItem_ne _ _ _ _ hk3,
      getItem_setItem_ne _ _ _ _ hk2, getItem_setItem_ne _ _ _ _ hk1]
  · intro s hs
    have hget : getItem (setItem store "openwork.defaultModel" s)
        "openwork.defaultModel" = some s := getItem_setItem_self _ _ _
    constructor
    · unfold applyDefaultModel
      rw [hget, hs]
    · unfold applyDefaultModel
      rw [hget, hs]
      exact getItem_setItem_self _ _ _

/-- C3 witness: a concrete preference state (variant `high`, a recorded check
time, the default base URL) round-trips from an empty store; every hypothesis
of the amended theorem is discharged at this input. -/
theorem prefs_roundtrip_amended_witness :
    (mountRestore
        (persistPrefs
          { defaultPrefs with modelVariant := some "high", updateLastCheckedAt := some 5 }
          [])
        defaultPrefs).1 =
      { defaultPrefs with modelVariant := some "high", updateLastCheckedAt := some 5 } :=
  (prefs_roundtrip_amended
    { defaultPrefs with modelVariant := some "high", updateLastCheckedAt := some 5 }
    [] defaultPrefs (by decide) (by decide) (by decide) (by decide)
    (fun v hv => by
      obtain rfl : "high" = v := Option.some.inj hv
      exact ⟨by decide, by decide⟩)
    (fun n hn => by
      obtain rfl : 5 = n := Option.some.inj hn
      decide)
    (fun h => by exact absurd h (by decide))
    rfl rfl rfl).1
